import Mathlib

/-!
# Utilization ratios of the pod autoscaler

A shallow embedding of `pkg/controller/podautoscaler/metrics/utilization.go`:
the two functions `GetResourceUtilizationRatio` and `GetMetricUsageRatio`,
together with the part of the Go semantics they rely on:

* `int64` / `int32` arithmetic is arithmetic on `Int` followed by an explicit
  two's-complement reduction (`wrap64`, `wrap32`);
* integer division truncates toward zero and panics on a zero divisor
  (`div64` returns `none`);
* `float64` is modelled by `Float64`, an exact description of IEEE-754 binary64
  values with round-to-nearest-even conversion and division;
* a Go map is an association list; the order of the list is the order in which
  `range` visits the entries.
-/

namespace Metrics

/-! ## Machine integers -/

/-- Two's-complement reduction to the signed 64-bit range: the value an `int64`
holds after an operation whose exact result is `x`. -/
def wrap64 (x : Int) : Int :=
  (x + 9223372036854775808) % 18446744073709551616 - 9223372036854775808

/-- Two's-complement reduction to the signed 32-bit range: the conversion
`int32(x)` of Go. -/
def wrap32 (x : Int) : Int :=
  (x + 2147483648) % 4294967296 - 2147483648

/-- Membership in the `int64` range. -/
def isInt64 (x : Int) : Prop :=
  -9223372036854775808 ≤ x ∧ x ≤ 9223372036854775807

/-- Membership in the `int32` range. -/
def isInt32 (x : Int) : Prop :=
  -2147483648 ≤ x ∧ x ≤ 2147483647

instance (x : Int) : Decidable (isInt64 x) := by
  unfold isInt64; exact inferInstance

instance (x : Int) : Decidable (isInt32 x) := by
  unfold isInt32; exact inferInstance

/-- Go division `a / b` on `int64`: a run-time panic (`none`) when `b` is zero,
otherwise the quotient truncated toward zero (`MinInt64 / -1` wraps around). -/
def div64 (a b : Int) : Option Int :=
  if b = 0 then none else some (wrap64 (Int.tdiv a b))

/-! ## IEEE-754 binary64 -/

/-- A `float64` value. A finite value `fin neg m e` denotes `(-1)^neg * m * 2^e`
in the canonical form of the binary64 encoding: either `2^52 ≤ m < 2^53` and
`-1074 ≤ e ≤ 971` (normal), or `m < 2^52` and `e = -1074` (subnormal, zero). -/
inductive Float64 where
  | nan : Float64
  | inf (neg : Bool) : Float64
  | fin (neg : Bool) (m : Nat) (e : Int) : Float64
  deriving DecidableEq, Repr

/-- Number of binary digits of `n`, computed with `fuel` halvings. -/
def bitLenAux : Nat → Nat → Nat
  | 0, _ => 0
  | fuel + 1, n => if n = 0 then 0 else bitLenAux fuel (n / 2) + 1

/-- Number of binary digits of `n` (`0` for `0`). -/
def bitLen (n : Nat) : Nat := bitLenAux n n

/-- Multiplication of a natural number by `2^k` for a non-negative `k`
(by `1` when `k` is negative). -/
def shiftUp (n : Nat) (k : Int) : Nat := n * 2 ^ k.toNat

/-- Greatest `l` with `2^l ≤ n / d`, for positive `n` and `d`. -/
def floorLog2 (n d : Nat) : Int :=
  let k : Int := (bitLen n : Int) - (bitLen d : Int)
  if shiftUp d k ≤ shiftUp n (-k) then k else k - 1

/-- Rounding to the nearest integer, ties to even, of `N / D`. -/
def roundHalfEven (N D : Nat) : Nat :=
  let q := N / D
  let r := N % D
  if 2 * r < D then q
  else if D < 2 * r then q + 1
  else if q % 2 = 0 then q else q + 1

/-- The binary64 value nearest to `(-1)^neg * n / d` (ties to even), for a
positive denominator `d`: the rounding applied by every float64 operation. -/
def Float64.round (neg : Bool) (n d : Nat) : Float64 :=
  if n = 0 then Float64.fin neg 0 (-1074)
  else
    let e : Int := max (floorLog2 n d - 52) (-1074)
    let m := roundHalfEven (shiftUp n (-e)) (shiftUp d e)
    let m1 := if m = 9007199254740992 then 4503599627370496 else m
    let e1 := if m = 9007199254740992 then e + 1 else e
    if 971 < e1 then Float64.inf neg else Float64.fin neg m1 e1

/-- The conversion `float64(x)` of an integer. -/
def Float64.ofInt (x : Int) : Float64 :=
  Float64.round (decide (x < 0)) x.natAbs 1

/-- The quotient `x / y` of two `float64` values. -/
def Float64.div : Float64 → Float64 → Float64
  | Float64.nan, _ => Float64.nan
  | _, Float64.nan => Float64.nan
  | Float64.inf _, Float64.inf _ => Float64.nan
  | Float64.inf s, Float64.fin t _ _ => Float64.inf (xor s t)
  | Float64.fin s _ _, Float64.inf t => Float64.fin (xor s t) 0 (-1074)
  | Float64.fin s m e, Float64.fin t n f =>
    if n = 0 then
      if m = 0 then Float64.nan else Float64.inf (xor s t)
    else
      Float64.round (xor s t) (shiftUp m (e - f)) (shiftUp n (f - e))

/-- The `float64` constant `1.0`. -/
def Float64.one : Float64 := Float64.fin false 4503599627370496 (-52)

/-- The `float64` constant `0` (positive zero). -/
def Float64.zero : Float64 := Float64.fin false 0 (-1074)

/-! ## Data model -/

/-- Modelled from the spec: the declaration of `PodMetric` is not part of the
source file; a metric record holds an observed value, a signed 64-bit integer
(the only field `utilization.go` reads). -/
structure PodMetric where
  Value : Int
  deriving DecidableEq, Repr

/-- Modelled from the spec: the declaration of `PodMetricsInfo` is not part of the
source file; it is a mapping from pod name to metric record. The list holds the
entries in the order `range` visits them. -/
abbrev PodMetricsInfo := List (String × PodMetric)

/-- The Go type `map[string]int64` of the `requests` argument; `List.lookup` is
the map access `requests[podName]`. -/
abbrev Requests := List (String × Int)

/-- The error value built by `fmt.Errorf` in `GetResourceUtilizationRatio`. -/
def errNoMatch : String := "no metrics returned matched known pods"

/-! ## GetResourceUtilizationRatio -/

/-- The three accumulators of the loop of `GetResourceUtilizationRatio`. -/
structure Totals where
  metricsTotal : Int
  requestsTotal : Int
  numEntries : Nat
  deriving DecidableEq, Repr

/-- One iteration of the loop at lines 31-41: an entry without a request is
skipped, otherwise the three accumulators are updated. -/
def loopStep (requests : Requests) (acc : Totals) (entry : String × PodMetric) : Totals :=
  match requests.lookup entry.1 with
  | none => acc
  | some request =>
    { metricsTotal := wrap64 (acc.metricsTotal + entry.2.Value),
      requestsTotal := wrap64 (acc.requestsTotal + request),
      numEntries := acc.numEntries + 1 }

/-- The loop at lines 31-41, started from zeroed accumulators. -/
def loopTotals (metrics : PodMetricsInfo) (requests : Requests) : Totals :=
  metrics.foldl (loopStep requests) { metricsTotal := 0, requestsTotal := 0, numEntries := 0 }

/-- The four values returned by `GetResourceUtilizationRatio`. -/
structure ResourceUtilization where
  utilizationRatio : Float64
  currentUtilization : Int
  rawAverageValue : Int
  err : Option String
  deriving DecidableEq, Repr

/-- The function `GetResourceUtilizationRatio` (lines 26-52). The result is `none`
when the Go code panics on an integer division by zero. -/
def GetResourceUtilizationRatio (metrics : PodMetricsInfo) (requests : Requests)
    (targetUtilization : Int) : Option ResourceUtilization :=
  let t := loopTotals metrics requests
  if t.requestsTotal = 0 then
    some { utilizationRatio := Float64.zero, currentUtilization := 0,
           rawAverageValue := 0, err := some errNoMatch }
  else
    match div64 (wrap64 (t.metricsTotal * 100)) t.requestsTotal with
    | none => none
    | some q =>
      let currentUtilization := wrap32 q
      match div64 t.metricsTotal (t.numEntries : Int) with
      | none => none
      | some avg =>
        some { utilizationRatio :=
                 Float64.div (Float64.ofInt currentUtilization) (Float64.ofInt targetUtilization),
               currentUtilization := currentUtilization,
               rawAverageValue := avg,
               err := none }

/-! ## GetMetricUsageRatio -/

/-- The loop at lines 58-61: the `int64` sum of all metric values. -/
def usageTotal (metrics : PodMetricsInfo) : Int :=
  metrics.foldl (fun acc entry => wrap64 (acc + entry.2.Value)) 0

/-- The selection of `targetUsage` at lines 65-80. The variable is declared
without a value, so it keeps `0` when no branch assigns it. -/
def targetUsage (currentUsage targetUsageLower targetUsageUpper : Int) : Int :=
  if targetUsageLower ≤ currentUsage ∧ currentUsage ≤ targetUsageUpper then currentUsage
  else if targetUsageLower = targetUsageUpper then targetUsageLower
  else if currentUsage < targetUsageLower then targetUsageLower
  else if targetUsageUpper < currentUsage then targetUsageUpper
  else 0

/-- The two values returned by `GetMetricUsageRatio`. -/
structure MetricUsage where
  usageRatio : Float64
  currentUsage : Int
  deriving DecidableEq, Repr

/-- The function `GetMetricUsageRatio` (lines 57-83). The result is `none` when
the Go code panics on the integer division by `len(metrics)`. -/
def GetMetricUsageRatio (metrics : PodMetricsInfo) (targetUsageLower targetUsageUpper : Int) :
    Option MetricUsage :=
  match div64 (usageTotal metrics) (metrics.length : Int) with
  | none => none
  | some currentUsage =>
    some { usageRatio :=
             Float64.div (Float64.ofInt currentUsage)
               (Float64.ofInt (targetUsage currentUsage targetUsageLower targetUsageUpper)),
           currentUsage := currentUsage }

/-! ## Specification-level quantities -/

/-- The metrics entries whose pod name is also a key of `requests`: the metrics map
restricted to the keys present in `requests`. -/
def matched (metrics : PodMetricsInfo) (requests : Requests) : PodMetricsInfo :=
  metrics.filter (fun entry => (requests.lookup entry.1).isSome)

/-- The exact (unbounded) sum of the metric values of the matched entries. -/
def matchedMetricsSum (metrics : PodMetricsInfo) (requests : Requests) : Int :=
  ((matched metrics requests).map (fun entry => entry.2.Value)).sum

/-- The requests of the pods that appear in both maps, one per matched entry. -/
def matchedRequests (metrics : PodMetricsInfo) (requests : Requests) : List Int :=
  metrics.filterMap (fun entry => requests.lookup entry.1)

/-- The exact (unbounded) sum of the requests of the matched entries. -/
def matchedRequestsSum (metrics : PodMetricsInfo) (requests : Requests) : Int :=
  (matchedRequests metrics requests).sum

/-- The exact (unbounded) sum of all metric values. -/
def metricsSum (metrics : PodMetricsInfo) : Int :=
  (metrics.map (fun entry => entry.2.Value)).sum

/-- The requests map restricted to the keys present in `metrics`. -/
def restrictRequests (requests : Requests) (metrics : PodMetricsInfo) : Requests :=
  requests.filter (fun entry => (metrics.lookup entry.1).isSome)

/-- The assignment made by the selection at lines 65-80: the value stored into
`targetUsage` by the branch that is taken, `none` when no condition holds and the
variable keeps its zero value. -/
def targetUsageAssigned (currentUsage targetUsageLower targetUsageUpper : Int) : Option Int :=
  if targetUsageLower ≤ currentUsage ∧ currentUsage ≤ targetUsageUpper then some currentUsage
  else if targetUsageLower = targetUsageUpper then some targetUsageLower
  else if currentUsage < targetUsageLower then some targetUsageLower
  else if targetUsageUpper < currentUsage then some targetUsageUpper
  else none

/-- The selection at lines 65-80 with the last `else if` (line 77) replaced by a
plain `else`. -/
def targetUsageElse (currentUsage targetUsageLower targetUsageUpper : Int) : Int :=
  if targetUsageLower ≤ currentUsage ∧ currentUsage ≤ targetUsageUpper then currentUsage
  else if targetUsageLower = targetUsageUpper then targetUsageLower
  else if currentUsage < targetUsageLower then targetUsageLower
  else targetUsageUpper

/-- The function `GetMetricUsageRatio` with the last `else if` replaced by a plain
`else`. -/
def GetMetricUsageRatioElse (metrics : PodMetricsInfo)
    (targetUsageLower targetUsageUpper : Int) : Option MetricUsage :=
  match div64 (usageTotal metrics) (metrics.length : Int) with
  | none => none
  | some currentUsage =>
    some { usageRatio :=
             Float64.div (Float64.ofInt currentUsage)
               (Float64.ofInt (targetUsageElse currentUsage targetUsageLower targetUsageUpper)),
           currentUsage := currentUsage }

/-- The selection at lines 65-80 with the single-target branch (lines 71-73)
removed. -/
def targetUsageNoSingle (currentUsage targetUsageLower targetUsageUpper : Int) : Int :=
  if targetUsageLower ≤ currentUsage ∧ currentUsage ≤ targetUsageUpper then currentUsage
  else if currentUsage < targetUsageLower then targetUsageLower
  else if targetUsageUpper < currentUsage then targetUsageUpper
  else 0

/-- The function `GetMetricUsageRatio` with the single-target branch removed. -/
def GetMetricUsageRatioNoSingle (metrics : PodMetricsInfo)
    (targetUsageLower targetUsageUpper : Int) : Option MetricUsage :=
  match div64 (usageTotal metrics) (metrics.length : Int) with
  | none => none
  | some currentUsage =>
    some { usageRatio :=
             Float64.div (Float64.ofInt currentUsage)
               (Float64.ofInt
                 (targetUsageNoSingle currentUsage targetUsageLower targetUsageUpper)),
           currentUsage := currentUsage }

/-- The ratio of `GetMetricUsageRatio` with the final division (line 82) taken as
exact rational division of `currentUsage` by `targetUsage`. -/
def exactUsageRatio (metrics : PodMetricsInfo) (targetUsageLower targetUsageUpper : Int) :
    Option ℚ :=
  match div64 (usageTotal metrics) (metrics.length : Int) with
  | none => none
  | some currentUsage =>
    some ((currentUsage : ℚ) /
      ((targetUsage currentUsage targetUsageLower targetUsageUpper : Int) : ℚ))

/-! ## Arithmetic lemmas -/

theorem wrap64_add_left (a b : Int) : wrap64 (wrap64 a + b) = wrap64 (a + b) := by
  unfold wrap64; omega

theorem wrap64_idem (a : Int) : wrap64 (wrap64 a) = wrap64 a := by
  unfold wrap64; omega

theorem isInt64_wrap64 (a : Int) : isInt64 (wrap64 a) := by
  unfold isInt64 wrap64; omega

theorem wrap64_of_isInt64 {a : Int} (h : isInt64 a) : wrap64 a = a := by
  unfold isInt64 at h; unfold wrap64; omega

theorem wrap32_of_isInt32 {a : Int} (h : isInt32 a) : wrap32 a = a := by
  unfold isInt32 at h; unfold wrap32; omega

theorem wrap32_wrap64 (a : Int) : wrap32 (wrap64 a) = wrap32 a := by
  unfold wrap32 wrap64; omega

theorem wrap64_mul_left (a c : Int) : wrap64 (wrap64 a * c) = wrap64 (a * c) := by
  have h : wrap64 a = a - 18446744073709551616 * ((a + 9223372036854775808) / 18446744073709551616) := by
    unfold wrap64; omega
  rw [h]
  have e : (a - 18446744073709551616 * ((a + 9223372036854775808) / 18446744073709551616)) * c
      = a * c + 18446744073709551616 * (-(((a + 9223372036854775808) / 18446744073709551616) * c)) := by
    ring
  rw [e]
  unfold wrap64
  have e2 : a * c + 18446744073709551616 * (-(((a + 9223372036854775808) / 18446744073709551616) * c))
      + 9223372036854775808
      = (a * c + 9223372036854775808)
        + 18446744073709551616 * (-(((a + 9223372036854775808) / 18446744073709551616) * c)) := by
    ring
  rw [e2, Int.add_mul_emod_self_left]

/-- Truncated division of an `int64` value by a positive divisor stays in range. -/
theorem isInt64_tdiv_pos {a b : Int} (ha : isInt64 a) (hb : 0 < b) : isInt64 (Int.tdiv a b) := by
  unfold isInt64 at *
  rcases Int.le_total 0 a with h | h
  · rw [Int.tdiv_eq_ediv h (le_of_lt hb)]
    have h1 : a / b ≤ a := Int.ediv_le_self b h
    have h2 : 0 ≤ a / b := Int.ediv_nonneg h (le_of_lt hb)
    omega
  · have hn : Int.tdiv a b = -(Int.tdiv (-a) b) := by
      rw [Int.neg_tdiv, neg_neg]
    have h0 : 0 ≤ -a := by omega
    rw [hn, Int.tdiv_eq_ediv h0 (le_of_lt hb)]
    have h1 : -a / b ≤ -a := Int.ediv_le_self b h0
    have h2 : 0 ≤ -a / b := Int.ediv_nonneg h0 (le_of_lt hb)
    omega

theorem div64_pos {a b : Int} (ha : isInt64 a) (hb : 0 < b) :
    div64 a b = some (Int.tdiv a b) := by
  unfold div64
  rw [if_neg (by omega), wrap64_of_isInt64 (isInt64_tdiv_pos ha hb)]

/-! ## Lemmas about binary64 rounding -/

theorem bitLenAux_zero (fuel : Nat) : bitLenAux fuel 0 = 0 := by
  cases fuel <;> simp [bitLenAux]

theorem bitLenAux_spec (fuel n : Nat) (hle : n ≤ fuel) (hn : n ≠ 0) :
    1 ≤ bitLenAux fuel n ∧ 2 ^ (bitLenAux fuel n - 1) ≤ n ∧ n < 2 ^ bitLenAux fuel n := by
  induction fuel generalizing n with
  | zero => omega
  | succ fuel ih =>
    have hstep : bitLenAux (fuel + 1) n = bitLenAux fuel (n / 2) + 1 := by
      simp [bitLenAux, hn]
    rw [hstep]
    by_cases h2 : n / 2 = 0
    · rw [h2, bitLenAux_zero]
      have h1 : n = 1 := by omega
      subst h1
      decide
    · obtain ⟨hb, hlo, hhi⟩ := ih (n / 2) (by omega) h2
      refine ⟨by omega, ?_, ?_⟩
      · have e1 : bitLenAux fuel (n / 2) + 1 - 1 = (bitLenAux fuel (n / 2) - 1) + 1 := by omega
        rw [e1, pow_succ]
        omega
      · rw [pow_succ]
        omega

theorem bitLen_spec (n : Nat) (hn : n ≠ 0) :
    1 ≤ bitLen n ∧ 2 ^ (bitLen n - 1) ≤ n ∧ n < 2 ^ bitLen n :=
  bitLenAux_spec n n (le_refl n) hn

theorem le_roundHalfEven (N D : Nat) : N / D ≤ roundHalfEven N D := by
  unfold roundHalfEven
  simp only
  split_ifs <;> omega

/-- The quotient of a non-zero finite value by itself is `1.0`. -/
theorem Float64.div_self_fin (s : Bool) (m : Nat) (e : Int) (hm : m ≠ 0) :
    Float64.div (Float64.fin s m e) (Float64.fin s m e) = Float64.one := by
  have hpos : 0 < m := Nat.pos_of_ne_zero hm
  have hq : m * 4503599627370496 / m = 4503599627370496 := Nat.mul_div_cancel_left _ hpos
  have hr : m * 4503599627370496 % m = 0 := Nat.mul_mod_right _ _
  have hlog : floorLog2 m m = 0 := by
    simp [floorLog2, shiftUp]
  have hround : roundHalfEven (shiftUp m 52) (shiftUp m (-52)) = 4503599627370496 := by
    have h1 : shiftUp m 52 = m * 4503599627370496 := by simp [shiftUp]
    have h2 : shiftUp m (-52) = m := by simp [shiftUp]
    rw [h1, h2]
    unfold roundHalfEven
    simp only [hq, hr]
    rw [if_pos (by omega)]
  have h0 : shiftUp m (e - e) = m := by simp [shiftUp]
  simp only [Float64.div, if_neg hm, h0, Float64.round, hlog]
  have hmax : max ((0 : Int) - 52) (-1074) = -52 := by decide
  rw [hmax]
  have hneg : (-(-52 : Int)) = 52 := by decide
  rw [hneg, hround]
  simp [Float64.one]

/-- Rounding a non-zero natural number below `2^64` gives a non-zero finite value. -/
theorem Float64.round_nat_fin (s : Bool) (n : Nat) (hn : n ≠ 0)
    (hub : n ≤ 9223372036854775808) :
    ∃ m e, m ≠ 0 ∧ Float64.round s n 1 = Float64.fin s m e := by
  obtain ⟨hb1, hlo, hhi⟩ := bitLen_spec n hn
  generalize hb : bitLen n = b at hb1 hlo hhi
  have hb64 : b ≤ 64 := by
    by_contra hc
    have h1 : 2 ^ 64 ≤ 2 ^ (b - 1) := Nat.pow_le_pow_right (by decide) (by omega)
    have h2 : (2 : Nat) ^ 64 = 18446744073709551616 := by norm_num
    omega
  have hone : bitLen 1 = 1 := by decide
  have hlog : floorLog2 n 1 = (b : Int) - 1 := by
    unfold floorLog2
    simp only [hb, hone]
    have ht1 : ((b : Int) - ((1 : Nat) : Int)).toNat = b - 1 := by omega
    have ht2 : (-((b : Int) - ((1 : Nat) : Int))).toNat = 0 := by omega
    have hc : shiftUp 1 ((b : Int) - ((1 : Nat) : Int)) ≤ shiftUp n (-((b : Int) - ((1 : Nat) : Int))) := by
      unfold shiftUp
      rw [ht1, ht2]
      simpa using hlo
    rw [if_pos hc]
    simp
  have hmax : max ((b : Int) - 1 - 52) (-1074) = (b : Int) - 53 := by
    rw [max_eq_left (by omega)]; omega
  have hmpos : 1 ≤ roundHalfEven (shiftUp n (-((b : Int) - 53))) (shiftUp 1 ((b : Int) - 53)) := by
    refine le_trans ?_ (le_roundHalfEven _ _)
    have hD : 0 < shiftUp 1 ((b : Int) - 53) := by
      unfold shiftUp; positivity
    rw [Nat.one_le_div_iff hD]
    unfold shiftUp
    by_cases hc : b ≤ 53
    · have ht1 : ((b : Int) - 53).toNat = 0 := by omega
      rw [ht1]
      have : 1 ≤ n * 2 ^ (-((b : Int) - 53)).toNat :=
        Nat.one_le_iff_ne_zero.mpr (Nat.mul_ne_zero hn (by positivity))
      simpa using this
    · have ht1 : ((b : Int) - 53).toNat = b - 53 := by omega
      have ht2 : (-((b : Int) - 53)).toNat = 0 := by omega
      rw [ht1, ht2]
      have h1 : 2 ^ (b - 53) ≤ 2 ^ (b - 1) := Nat.pow_le_pow_right (by decide) (by omega)
      simp only [one_mul, pow_zero, mul_one]
      omega
  unfold Float64.round
  rw [if_neg hn]
  simp only [hlog, hmax]
  generalize roundHalfEven (shiftUp n (-((b : Int) - 53))) (shiftUp 1 ((b : Int) - 53)) = m at hmpos
  by_cases hm : m = 9007199254740992
  · simp only [hm, if_true]
    rw [if_neg (by omega)]
    exact ⟨_, _, by decide, rfl⟩
  · simp only [if_neg hm]
    rw [if_neg (by omega)]
    exact ⟨_, _, by omega, rfl⟩

/-- The conversion of a non-zero `int64` value is a non-zero finite `float64`. -/
theorem Float64.ofInt_fin_of_ne_zero (x : Int) (hx : x ≠ 0) (hr : isInt64 x) :
    ∃ m e, m ≠ 0 ∧ Float64.ofInt x = Float64.fin (decide (x < 0)) m e :=
  Float64.round_nat_fin _ x.natAbs (by omega) (by unfold isInt64 at hr; omega)

/-- The quotient of the conversion of a non-zero `int64` value by itself is `1.0`. -/
theorem Float64.div_ofInt_self (x : Int) (hx : x ≠ 0) (hr : isInt64 x) :
    Float64.div (Float64.ofInt x) (Float64.ofInt x) = Float64.one := by
  obtain ⟨m, e, hm, h⟩ := Float64.ofInt_fin_of_ne_zero x hx hr
  rw [h]
  exact Float64.div_self_fin _ m e hm

/-! ## The loop of GetResourceUtilizationRatio -/

theorem foldl_loopStep (requests : Requests) (metrics : PodMetricsInfo) (acc : Totals)
    (hm : wrap64 acc.metricsTotal = acc.metricsTotal)
    (hr : wrap64 acc.requestsTotal = acc.requestsTotal) :
    metrics.foldl (loopStep requests) acc =
      { metricsTotal := wrap64 (acc.metricsTotal + matchedMetricsSum metrics requests),
        requestsTotal := wrap64 (acc.requestsTotal + matchedRequestsSum metrics requests),
        numEntries := acc.numEntries + (matched metrics requests).length } := by
  induction metrics generalizing acc with
  | nil =>
    simp [matchedMetricsSum, matchedRequestsSum, matched, matchedRequests, hm, hr]
  | cons entry rest ih =>
    rw [List.foldl_cons]
    cases hl : requests.lookup entry.1 with
    | none =>
      have hs : loopStep requests acc entry = acc := by simp [loopStep, hl]
      rw [hs, ih acc hm hr]
      simp [matchedMetricsSum, matchedRequestsSum, matched, matchedRequests, hl]
    | some request =>
      have hs : loopStep requests acc entry =
          { metricsTotal := wrap64 (acc.metricsTotal + entry.2.Value),
            requestsTotal := wrap64 (acc.requestsTotal + request),
            numEntries := acc.numEntries + 1 } := by simp [loopStep, hl]
      rw [hs, ih _ (wrap64_idem _) (wrap64_idem _)]
      simp only [wrap64_add_left]
      simp [matchedMetricsSum, matchedRequestsSum, matched, matchedRequests, hl,
        add_assoc, add_comm, add_left_comm]

/-- The loop computes the `int64` sums of the matched metric values and requests and
the number of matched entries. -/
theorem loopTotals_eq (metrics : PodMetricsInfo) (requests : Requests) :
    loopTotals metrics requests =
      { metricsTotal := wrap64 (matchedMetricsSum metrics requests),
        requestsTotal := wrap64 (matchedRequestsSum metrics requests),
        numEntries := (matched metrics requests).length } := by
  unfold loopTotals
  rw [foldl_loopStep requests metrics _ (by decide) (by decide)]
  simp

theorem matchedRequests_length (metrics : PodMetricsInfo) (requests : Requests) :
    (matchedRequests metrics requests).length = (matched metrics requests).length := by
  induction metrics with
  | nil => rfl
  | cons entry rest ih =>
    cases hl : requests.lookup entry.1 with
    | none => simpa [matchedRequests, matched, hl] using ih
    | some request => simpa [matchedRequests, matched, hl] using ih

/-- A non-zero `int64` sum of the matched requests needs at least one matched entry. -/
theorem matched_length_pos {metrics : PodMetricsInfo} {requests : Requests}
    (h : wrap64 (matchedRequestsSum metrics requests) ≠ 0) :
    0 < (matched metrics requests).length := by
  rcases Nat.eq_zero_or_pos (matched metrics requests).length with h0 | h0
  · exfalso
    apply h
    have hl : (matchedRequests metrics requests).length = 0 := by
      rw [matchedRequests_length]; exact h0
    have hnil : matchedRequests metrics requests = [] := List.length_eq_zero.mp hl
    unfold matchedRequestsSum
    rw [hnil]
    decide
  · exact h0

/-- The result of `GetResourceUtilizationRatio` on the error path. -/
theorem GetResourceUtilizationRatio_of_zero (metrics : PodMetricsInfo) (requests : Requests)
    (targetUtilization : Int) (h : wrap64 (matchedRequestsSum metrics requests) = 0) :
    GetResourceUtilizationRatio metrics requests targetUtilization =
      some { utilizationRatio := Float64.zero, currentUtilization := 0,
             rawAverageValue := 0, err := some errNoMatch } := by
  unfold GetResourceUtilizationRatio
  simp [loopTotals_eq, h]

/-- The result of `GetResourceUtilizationRatio` on the success path, in terms of the
exact sums over the matched entries. -/
theorem GetResourceUtilizationRatio_of_ne_zero (metrics : PodMetricsInfo) (requests : Requests)
    (targetUtilization : Int) (h : wrap64 (matchedRequestsSum metrics requests) ≠ 0) :
    GetResourceUtilizationRatio metrics requests targetUtilization =
      some { utilizationRatio :=
               Float64.div
                 (Float64.ofInt (wrap32 (wrap64 (Int.tdiv
                   (wrap64 (matchedMetricsSum metrics requests * 100))
                   (wrap64 (matchedRequestsSum metrics requests))))))
                 (Float64.ofInt targetUtilization),
             currentUtilization :=
               wrap32 (wrap64 (Int.tdiv
                 (wrap64 (matchedMetricsSum metrics requests * 100))
                 (wrap64 (matchedRequestsSum metrics requests)))),
             rawAverageValue :=
               Int.tdiv (wrap64 (matchedMetricsSum metrics requests))
                 ((matched metrics requests).length : Int),
             err := none } := by
  have hpos : 0 < (matched metrics requests).length := matched_length_pos h
  have hposi : (0 : Int) < ((matched metrics requests).length : Int) := by exact_mod_cast hpos
  unfold GetResourceUtilizationRatio
  simp only [loopTotals_eq, if_neg h, wrap64_mul_left]
  rw [div64_pos (isInt64_wrap64 _) hposi]
  simp [div64, h]

/-! ## Frame lemmas for the loop -/

theorem foldl_loopStep_congr (requests requests2 : Requests) (metrics : PodMetricsInfo)
    (acc : Totals)
    (h : ∀ entry ∈ metrics, requests2.lookup entry.1 = requests.lookup entry.1) :
    metrics.foldl (loopStep requests2) acc = metrics.foldl (loopStep requests) acc := by
  induction metrics generalizing acc with
  | nil => rfl
  | cons entry rest ih =>
    have he : loopStep requests2 acc entry = loopStep requests acc entry := by
      unfold loopStep
      rw [h entry (List.mem_cons_self _ _)]
    rw [List.foldl_cons, List.foldl_cons, he]
    exact ih _ (fun x hx => h x (List.mem_cons_of_mem _ hx))

theorem foldl_loopStep_matched (requests : Requests) (metrics : PodMetricsInfo)
    (acc : Totals) :
    (matched metrics requests).foldl (loopStep requests) acc =
      metrics.foldl (loopStep requests) acc := by
  induction metrics generalizing acc with
  | nil => rfl
  | cons entry rest ih =>
    cases hl : requests.lookup entry.1 with
    | none =>
      have hs : loopStep requests acc entry = acc := by simp [loopStep, hl]
      have hm : matched (entry :: rest) requests = matched rest requests := by
        simp [matched, hl]
      rw [hm, List.foldl_cons, hs]
      exact ih acc
    | some request =>
      have hm : matched (entry :: rest) requests = entry :: matched rest requests := by
        simp [matched, hl]
      rw [hm, List.foldl_cons, List.foldl_cons]
      exact ih _

theorem lookup_isSome_of_mem (metrics : PodMetricsInfo) (entry : String × PodMetric)
    (h : entry ∈ metrics) : (metrics.lookup entry.1).isSome = true := by
  induction metrics with
  | nil => cases h
  | cons head rest ih =>
    obtain ⟨k, v⟩ := head
    by_cases hk : entry.1 = k
    · simp [List.lookup_cons, hk]
    · have hb : (entry.1 == k) = false := by simpa using hk
      rw [List.lookup_cons, hb]
      rcases List.mem_cons.mp h with h1 | h1
      · exact absurd (by rw [h1]) hk
      · exact ih h1

theorem lookup_restrictRequests (requests : Requests) (metrics : PodMetricsInfo) (k : String)
    (hk : (metrics.lookup k).isSome = true) :
    (restrictRequests requests metrics).lookup k = requests.lookup k := by
  induction requests with
  | nil => rfl
  | cons head rest ih =>
    obtain ⟨k2, v⟩ := head
    by_cases hkk : k = k2
    · subst hkk
      simp [restrictRequests, List.filter_cons, hk, List.lookup_cons]
    · have hb : (k == k2) = false := by simpa using hkk
      by_cases hin : (metrics.lookup k2).isSome = true
      · have hf : restrictRequests ((k2, v) :: rest) metrics =
            (k2, v) :: restrictRequests rest metrics := by
          simp [restrictRequests, List.filter_cons, hin]
        rw [hf, List.lookup_cons, List.lookup_cons, hb]
        exact ih
      · have hf : restrictRequests ((k2, v) :: rest) metrics =
            restrictRequests rest metrics := by
          simp [restrictRequests, List.filter_cons, hin]
        rw [hf, List.lookup_cons, hb]
        exact ih

theorem loopTotals_matched (metrics : PodMetricsInfo) (requests : Requests) :
    loopTotals (matched metrics requests) requests = loopTotals metrics requests :=
  foldl_loopStep_matched requests metrics _

theorem loopTotals_restrictRequests (metrics : PodMetricsInfo) (requests : Requests) :
    loopTotals metrics (restrictRequests requests metrics) = loopTotals metrics requests :=
  foldl_loopStep_congr requests (restrictRequests requests metrics) metrics _
    (fun entry hmem =>
      lookup_restrictRequests requests metrics entry.1 (lookup_isSome_of_mem metrics entry hmem))

theorem loopTotals_restrict_both (metrics : PodMetricsInfo) (requests : Requests) :
    loopTotals (matched metrics requests) (restrictRequests requests metrics) =
      loopTotals metrics requests := by
  have h1 : loopTotals (matched metrics requests) (restrictRequests requests metrics) =
      loopTotals (matched metrics requests) requests :=
    foldl_loopStep_congr requests (restrictRequests requests metrics) (matched metrics requests) _
      (fun entry hmem =>
        lookup_restrictRequests requests metrics entry.1
          (lookup_isSome_of_mem metrics entry (List.mem_of_mem_filter hmem)))
  rw [h1, loopTotals_matched]

/-- The results of `GetResourceUtilizationRatio` depend on the two maps only through
the accumulators of the loop. -/
theorem GetResourceUtilizationRatio_congr (metrics metrics2 : PodMetricsInfo)
    (requests requests2 : Requests) (targetUtilization : Int)
    (h : loopTotals metrics2 requests2 = loopTotals metrics requests) :
    GetResourceUtilizationRatio metrics2 requests2 targetUtilization =
      GetResourceUtilizationRatio metrics requests targetUtilization := by
  unfold GetResourceUtilizationRatio
  rw [h]

/-- A result of `GetResourceUtilizationRatio` without error is the one of the success
path. -/
theorem GetResourceUtilizationRatio_ok (metrics : PodMetricsInfo) (requests : Requests)
    (targetUtilization : Int) (r : ResourceUtilization)
    (h : GetResourceUtilizationRatio metrics requests targetUtilization = some r)
    (herr : r.err = none) :
    wrap64 (matchedRequestsSum metrics requests) ≠ 0 := by
  intro hz
  rw [GetResourceUtilizationRatio_of_zero metrics requests targetUtilization hz] at h
  cases h
  cases herr

/-! ## Claims about GetResourceUtilizationRatio -/

/-- C1: for every metrics map, requests map and target utilization,
`GetResourceUtilizationRatio` returns (it never panics), and its error is non-nil if
and only if the `int64` sum of the requests of the pods that appear in both maps is
zero; with no matched pod at all the error is returned. -/
theorem c1_error_iff_matched_requests_sum_zero (metrics : PodMetricsInfo)
    (requests : Requests) (targetUtilization : Int) :
    ∃ r, GetResourceUtilizationRatio metrics requests targetUtilization = some r ∧
      (r.err ≠ none ↔ wrap64 (matchedRequestsSum metrics requests) = 0) ∧
      (matched metrics requests = [] → r.err ≠ none) := by
  by_cases h : wrap64 (matchedRequestsSum metrics requests) = 0
  · refine ⟨_, GetResourceUtilizationRatio_of_zero metrics requests targetUtilization h, ?_, ?_⟩
    · simp [h]
    · intro _; simp
  · refine ⟨_, GetResourceUtilizationRatio_of_ne_zero metrics requests targetUtilization h, ?_, ?_⟩
    · simp [h]
    · intro hnil
      have hpos := matched_length_pos h
      rw [hnil] at hpos
      exact absurd hpos (by decide)

/-- C1 at the disjoint maps metrics={A:10}, requests={B:100}: no pod is matched and the
error is returned. -/
theorem c1_error_iff_matched_requests_sum_zero_witness :
    matched [("A", { Value := 10 })] [("B", 100)] = [] ∧
    ∃ r, GetResourceUtilizationRatio [("A", { Value := 10 })] [("B", 100)] 50 = some r ∧
      r.err ≠ none := by
  refine ⟨by decide, ?_⟩
  obtain ⟨r, hr, _, hdisj⟩ :=
    c1_error_iff_matched_requests_sum_zero [("A", { Value := 10 })] [("B", 100)] 50
  exact ⟨r, hr, hdisj (by decide)⟩

/-- C2 fails as stated: with metrics={A:2147483648} and requests={A:100} the matched
requests sum to 100 > 0 and (sum of metrics * 100) / (sum of requests) is 2147483648
(nothing overflows in `int64`), but the returned currentUtilization is -2147483648. -/
theorem c2_counterexample_int32_conversion :
    0 < matchedRequestsSum [("A", { Value := 2147483648 })] [("A", 100)] ∧
    Int.tdiv (matchedMetricsSum [("A", { Value := 2147483648 })] [("A", 100)] * 100)
      (matchedRequestsSum [("A", { Value := 2147483648 })] [("A", 100)]) = 2147483648 ∧
    (GetResourceUtilizationRatio [("A", { Value := 2147483648 })] [("A", 100)] 50).map
      (fun r => (r.currentUtilization, r.err)) = some (-2147483648, none) := by
  decide

/-- C2 (amended): when the `int64` sum of the matched requests is greater than zero,
`GetResourceUtilizationRatio` returns without error and currentUtilization is the
`int32` conversion of (sum of matched metric values * 100) / (sum of matched
requests), the sums and the product being `int64` values and the division truncating
toward zero; when the sums, the product and the quotient are free of overflow it is
that quotient itself. -/
theorem c2_current_utilization_amended (metrics : PodMetricsInfo) (requests : Requests)
    (targetUtilization : Int) (h : 0 < wrap64 (matchedRequestsSum metrics requests)) :
    ∃ r, GetResourceUtilizationRatio metrics requests targetUtilization = some r ∧
      r.err = none ∧
      r.currentUtilization =
        wrap32 (Int.tdiv (wrap64 (wrap64 (matchedMetricsSum metrics requests) * 100))
          (wrap64 (matchedRequestsSum metrics requests))) ∧
      (isInt64 (matchedMetricsSum metrics requests * 100) →
        isInt64 (matchedRequestsSum metrics requests) →
        isInt32 (Int.tdiv (matchedMetricsSum metrics requests * 100)
          (matchedRequestsSum metrics requests)) →
        r.currentUtilization =
          Int.tdiv (matchedMetricsSum metrics requests * 100)
            (matchedRequestsSum metrics requests)) := by
  refine ⟨_, GetResourceUtilizationRatio_of_ne_zero metrics requests targetUtilization
    (ne_of_gt h), rfl, ?_, ?_⟩
  · simp only [wrap32_wrap64, wrap64_mul_left]
  · intro hm hr hq
    simp only [wrap32_wrap64]
    rw [wrap64_of_isInt64 hm, wrap64_of_isInt64 hr, wrap32_of_isInt32 hq]

/-- C2 (amended) at metrics={A:50,B:150}, requests={A:100,B:100}: the current
utilization is 100. -/
theorem c2_current_utilization_amended_witness :
    0 < wrap64 (matchedRequestsSum [("A", { Value := 50 }), ("B", { Value := 150 })]
      [("A", 100), ("B", 100)]) ∧
    ∃ r, GetResourceUtilizationRatio [("A", { Value := 50 }), ("B", { Value := 150 })]
        [("A", 100), ("B", 100)] 50 = some r ∧ r.err = none ∧ r.currentUtilization = 100 := by
  refine ⟨by decide, ?_⟩
  obtain ⟨r, hr, herr, _, hexact⟩ :=
    c2_current_utilization_amended [("A", { Value := 50 }), ("B", { Value := 150 })]
      [("A", 100), ("B", 100)] 50 (by decide)
  exact ⟨r, hr, herr, by rw [hexact (by decide) (by decide) (by decide)]; decide⟩

/-! ## Lemmas about GetMetricUsageRatio -/

theorem foldl_usage (metrics : PodMetricsInfo) (acc : Int) (h : wrap64 acc = acc) :
    metrics.foldl (fun a entry => wrap64 (a + entry.2.Value)) acc =
      wrap64 (acc + metricsSum metrics) := by
  induction metrics generalizing acc with
  | nil => simp [metricsSum, h]
  | cons entry rest ih =>
    rw [List.foldl_cons, ih _ (wrap64_idem _), wrap64_add_left]
    simp [metricsSum, add_assoc]

/-- The loop at lines 58-61 computes the `int64` sum of all metric values. -/
theorem usageTotal_eq (metrics : PodMetricsInfo) :
    usageTotal metrics = wrap64 (metricsSum metrics) := by
  unfold usageTotal
  rw [foldl_usage metrics 0 (by decide)]
  simp

/-- The result of `GetMetricUsageRatio` on a non-empty metrics map. -/
theorem GetMetricUsageRatio_of_ne_nil (metrics : PodMetricsInfo)
    (targetUsageLower targetUsageUpper : Int) (hne : metrics ≠ []) :
    GetMetricUsageRatio metrics targetUsageLower targetUsageUpper =
      some { usageRatio :=
               Float64.div
                 (Float64.ofInt (Int.tdiv (wrap64 (metricsSum metrics)) (metrics.length : Int)))
                 (Float64.ofInt (targetUsage
                   (Int.tdiv (wrap64 (metricsSum metrics)) (metrics.length : Int))
                   targetUsageLower targetUsageUpper)),
             currentUsage := Int.tdiv (wrap64 (metricsSum metrics)) (metrics.length : Int) } := by
  have hpos : (0 : Int) < (metrics.length : Int) := by
    have : 0 < metrics.length := List.length_pos.mpr hne
    exact_mod_cast this
  unfold GetMetricUsageRatio
  rw [usageTotal_eq, div64_pos (isInt64_wrap64 _) hpos]

/-- Inside the target range the ratio returned by `GetMetricUsageRatio` is `1.0` when
the current usage is non-zero and NaN when the current usage is zero. -/
theorem usageRatio_in_range (metrics : PodMetricsInfo)
    (targetUsageLower targetUsageUpper : Int) (hne : metrics ≠ []) :
    ∃ r, GetMetricUsageRatio metrics targetUsageLower targetUsageUpper = some r ∧
      (targetUsageLower ≤ r.currentUsage → r.currentUsage ≤ targetUsageUpper →
        (r.currentUsage ≠ 0 → r.usageRatio = Float64.one) ∧
        (r.currentUsage = 0 → r.usageRatio = Float64.nan)) := by
  refine ⟨_, GetMetricUsageRatio_of_ne_nil metrics targetUsageLower targetUsageUpper hne, ?_⟩
  intro hlo hup
  simp only at hlo hup ⊢
  have hpos : (0 : Int) < (metrics.length : Int) := by
    have : 0 < metrics.length := List.length_pos.mpr hne
    exact_mod_cast this
  have hin : isInt64 (Int.tdiv (wrap64 (metricsSum metrics)) (metrics.length : Int)) :=
    isInt64_tdiv_pos (isInt64_wrap64 _) hpos
  have ht : targetUsage (Int.tdiv (wrap64 (metricsSum metrics)) (metrics.length : Int))
      targetUsageLower targetUsageUpper =
      Int.tdiv (wrap64 (metricsSum metrics)) (metrics.length : Int) := by
    unfold targetUsage
    rw [if_pos ⟨hlo, hup⟩]
  rw [ht]
  constructor
  · intro hnz
    exact Float64.div_ofInt_self _ hnz hin
  · intro hz
    rw [hz]
    decide

/-! ## Claims about GetMetricUsageRatio -/

/-- C3 (failing input): with metrics={A:0}, targetUsageLower=0 and targetUsageUpper=10
the current usage 0 lies in the range, `targetUsage` is set to the current usage 0, and
the returned ratio is 0.0/0.0 = NaN, not 1.0. -/
theorem c3_in_range_zero_usage_gives_nan :
    GetMetricUsageRatio [("A", { Value := 0 })] 0 10 =
      some { usageRatio := Float64.nan, currentUsage := 0 } ∧
    ((0 : Int) ≤ 0 ∧ (0 : Int) ≤ 10) ∧
    Float64.nan ≠ Float64.one := by
  decide

/-- C4: for a non-empty metrics map and a range with targetUsageLower <= targetUsageUpper,
`GetMetricUsageRatio` returns; below the range the ratio is
float(currentUsage) / float(targetUsageLower) and above the range it is
float(currentUsage) / float(targetUsageUpper). -/
theorem c4_ratio_outside_range (metrics : PodMetricsInfo)
    (targetUsageLower targetUsageUpper : Int) (hne : metrics ≠ [])
    (hle : targetUsageLower ≤ targetUsageUpper) :
    ∃ r, GetMetricUsageRatio metrics targetUsageLower targetUsageUpper = some r ∧
      (r.currentUsage < targetUsageLower →
        r.usageRatio =
          Float64.div (Float64.ofInt r.currentUsage) (Float64.ofInt targetUsageLower)) ∧
      (targetUsageUpper < r.currentUsage →
        r.usageRatio =
          Float64.div (Float64.ofInt r.currentUsage) (Float64.ofInt targetUsageUpper)) := by
  refine ⟨_, GetMetricUsageRatio_of_ne_nil metrics targetUsageLower targetUsageUpper hne, ?_, ?_⟩
  · intro hlt
    simp only at hlt ⊢
    have ht : targetUsage (Int.tdiv (wrap64 (metricsSum metrics)) (metrics.length : Int))
        targetUsageLower targetUsageUpper = targetUsageLower := by
      unfold targetUsage
      split_ifs <;> omega
    rw [ht]
  · intro hgt
    simp only at hgt ⊢
    have ht : targetUsage (Int.tdiv (wrap64 (metricsSum metrics)) (metrics.length : Int))
        targetUsageLower targetUsageUpper = targetUsageUpper := by
      unfold targetUsage
      split_ifs <;> omega
    rw [ht]

/-- C4 at metrics={A:10,B:10}, range [20,40] (below: ratio 10/20 = 0.5) together with
metrics={A:50,B:70}, range [20,40] handled by the same theorem (above: ratio 60/40). -/
theorem c4_ratio_outside_range_witness :
    (∃ r, GetMetricUsageRatio [("A", { Value := 10 }), ("B", { Value := 10 })] 20 40 = some r ∧
      r.currentUsage = 10 ∧
      r.usageRatio = Float64.div (Float64.ofInt 10) (Float64.ofInt 20)) ∧
    (∃ r, GetMetricUsageRatio [("A", { Value := 50 }), ("B", { Value := 70 })] 20 40 = some r ∧
      r.currentUsage = 60 ∧
      r.usageRatio = Float64.div (Float64.ofInt 60) (Float64.ofInt 40)) := by
  constructor
  · obtain ⟨r, hr, hlow, _⟩ :=
      c4_ratio_outside_range [("A", { Value := 10 }), ("B", { Value := 10 })] 20 40
        (by decide) (by decide)
    have hcu : r.currentUsage = 10 := by
      have h2 : GetMetricUsageRatio [("A", { Value := 10 }), ("B", { Value := 10 })] 20 40 =
          some { usageRatio := Float64.fin false 4503599627370496 (-53), currentUsage := 10 } := by
        decide
      rw [h2] at hr
      cases hr
      rfl
    refine ⟨r, hr, hcu, ?_⟩
    have h3 := hlow (by rw [hcu]; decide)
    rw [hcu] at h3
    exact h3
  · obtain ⟨r, hr, _, hhigh⟩ :=
      c4_ratio_outside_range [("A", { Value := 50 }), ("B", { Value := 70 })] 20 40
        (by decide) (by decide)
    have hcu : r.currentUsage = 60 := by
      have h2 : GetMetricUsageRatio [("A", { Value := 50 }), ("B", { Value := 70 })] 20 40 =
          some { usageRatio := Float64.fin false 6755399441055744 (-52), currentUsage := 60 } := by
        decide
      rw [h2] at hr
      cases hr
      rfl
    refine ⟨r, hr, hcu, ?_⟩
    have h3 := hhigh (by rw [hcu]; decide)
    rw [hcu] at h3
    exact h3

/-- C5: for a non-empty metrics map and a single target value T (targetUsageLower =
targetUsageUpper = T), `GetMetricUsageRatio` returns, and when the current usage
differs from T the ratio is float(currentUsage) / float(T). -/
theorem c5_single_target_ratio (metrics : PodMetricsInfo) (T : Int) (hne : metrics ≠ []) :
    ∃ r, GetMetricUsageRatio metrics T T = some r ∧
      (r.currentUsage ≠ T →
        r.usageRatio = Float64.div (Float64.ofInt r.currentUsage) (Float64.ofInt T)) := by
  refine ⟨_, GetMetricUsageRatio_of_ne_nil metrics T T hne, ?_⟩
  intro hneq
  simp only at hneq ⊢
  have ht : targetUsage (Int.tdiv (wrap64 (metricsSum metrics)) (metrics.length : Int)) T T
      = T := by
    unfold targetUsage
    split_ifs <;> omega
  rw [ht]

/-- C5 at metrics={A:10,B:10}, targetUsageLower = targetUsageUpper = 20: the ratio is
10/20 = 0.5. -/
theorem c5_single_target_ratio_witness :
    ∃ r, GetMetricUsageRatio [("A", { Value := 10 }), ("B", { Value := 10 })] 20 20 = some r ∧
      r.currentUsage = 10 ∧
      r.usageRatio = Float64.fin false 4503599627370496 (-53) := by
  obtain ⟨r, hr, hratio⟩ :=
    c5_single_target_ratio [("A", { Value := 10 }), ("B", { Value := 10 })] 20 (by decide)
  have hcu : r.currentUsage = 10 := by
    have h2 : GetMetricUsageRatio [("A", { Value := 10 }), ("B", { Value := 10 })] 20 20 =
        some { usageRatio := Float64.fin false 4503599627370496 (-53), currentUsage := 10 } := by
      decide
    rw [h2] at hr
    cases hr
    rfl
  refine ⟨r, hr, hcu, ?_⟩
  rw [hratio (by rw [hcu]; decide), hcu]
  decide

/-- C7: for a non-empty metrics map and any target range, `GetMetricUsageRatio` returns
and currentUsage is the `int64` sum of all metric values divided by the number of
entries, truncated toward zero; without overflow of the sum it is the exact sum
divided by the number of entries. -/
theorem c7_current_usage_is_truncated_average (metrics : PodMetricsInfo)
    (targetUsageLower targetUsageUpper : Int) (hne : metrics ≠ []) :
    ∃ r, GetMetricUsageRatio metrics targetUsageLower targetUsageUpper = some r ∧
      r.currentUsage = Int.tdiv (wrap64 (metricsSum metrics)) (metrics.length : Int) ∧
      (isInt64 (metricsSum metrics) →
        r.currentUsage = Int.tdiv (metricsSum metrics) (metrics.length : Int)) := by
  refine ⟨_, GetMetricUsageRatio_of_ne_nil metrics targetUsageLower targetUsageUpper hne,
    rfl, ?_⟩
  intro h
  simp only
  rw [wrap64_of_isInt64 h]

/-- C7 at metrics={A:-1,B:-2}: the total -3 over 2 entries gives -1, not -2. -/
theorem c7_current_usage_is_truncated_average_witness :
    ∃ r, GetMetricUsageRatio [("A", { Value := -1 }), ("B", { Value := -2 })] 0 10 = some r ∧
      r.currentUsage = -1 := by
  obtain ⟨r, hr, _, hexact⟩ :=
    c7_current_usage_is_truncated_average [("A", { Value := -1 }), ("B", { Value := -2 })] 0 10
      (by decide)
  exact ⟨r, hr, by rw [hexact (by decide)]; decide⟩

/-! ## Further claims about GetResourceUtilizationRatio -/

/-- C6: unmatched entries never contribute. `GetResourceUtilizationRatio` returns the
same four results when metrics is restricted to the keys present in requests and
requests to the keys present in metrics, and also when only one of the two maps is
restricted. -/
theorem c6_unmatched_entries_do_not_contribute (metrics : PodMetricsInfo)
    (requests : Requests) (targetUtilization : Int) :
    GetResourceUtilizationRatio (matched metrics requests)
        (restrictRequests requests metrics) targetUtilization =
      GetResourceUtilizationRatio metrics requests targetUtilization ∧
    GetResourceUtilizationRatio (matched metrics requests) requests targetUtilization =
      GetResourceUtilizationRatio metrics requests targetUtilization ∧
    GetResourceUtilizationRatio metrics (restrictRequests requests metrics) targetUtilization =
      GetResourceUtilizationRatio metrics requests targetUtilization :=
  ⟨GetResourceUtilizationRatio_congr _ _ _ _ _ (loopTotals_restrict_both metrics requests),
   GetResourceUtilizationRatio_congr _ _ _ _ _ (loopTotals_matched metrics requests),
   GetResourceUtilizationRatio_congr _ _ _ _ _ (loopTotals_restrictRequests metrics requests)⟩

/-- C8: whenever `GetResourceUtilizationRatio` returns without error, at least one
entry is matched and rawAverageValue is the `int64` sum of the matched metric values
divided by the number of matched entries, truncated toward zero; without overflow of
the sum it is the exact sum divided by that number. -/
theorem c8_raw_average_value (metrics : PodMetricsInfo) (requests : Requests)
    (targetUtilization : Int) (r : ResourceUtilization)
    (h : GetResourceUtilizationRatio metrics requests targetUtilization = some r)
    (herr : r.err = none) :
    0 < (matched metrics requests).length ∧
    r.rawAverageValue =
      Int.tdiv (wrap64 (matchedMetricsSum metrics requests))
        ((matched metrics requests).length : Int) ∧
    (isInt64 (matchedMetricsSum metrics requests) →
      r.rawAverageValue =
        Int.tdiv (matchedMetricsSum metrics requests)
          ((matched metrics requests).length : Int)) := by
  have hnz := GetResourceUtilizationRatio_ok metrics requests targetUtilization r h herr
  rw [GetResourceUtilizationRatio_of_ne_zero metrics requests targetUtilization hnz] at h
  cases h
  refine ⟨matched_length_pos hnz, rfl, ?_⟩
  intro hin
  simp only
  rw [wrap64_of_isInt64 hin]

/-- C8 at metrics={A:50,B:150}, requests={A:100,B:100}: the raw average value is 100. -/
theorem c8_raw_average_value_witness :
    GetResourceUtilizationRatio [("A", { Value := 50 }), ("B", { Value := 150 })]
        [("A", 100), ("B", 100)] 50 =
      some { utilizationRatio := Float64.fin false 4503599627370496 (-51),
             currentUtilization := 100, rawAverageValue := 100, err := none } ∧
    (100 : Int) =
      Int.tdiv (wrap64 (matchedMetricsSum [("A", { Value := 50 }), ("B", { Value := 150 })]
        [("A", 100), ("B", 100)]))
        ((matched [("A", { Value := 50 }), ("B", { Value := 150 })]
          [("A", 100), ("B", 100)]).length : Int) :=
  ⟨by decide,
   (c8_raw_average_value [("A", { Value := 50 }), ("B", { Value := 150 })]
      [("A", 100), ("B", 100)] 50
      { utilizationRatio := Float64.fin false 4503599627370496 (-51),
        currentUtilization := 100, rawAverageValue := 100, err := none }
      (by decide) rfl).2.1⟩

/-- C9: whenever `GetResourceUtilizationRatio` returns without error, utilizationRatio
is float64(currentUtilization) / float64(targetUtilization), where currentUtilization
is the `int32` value returned alongside it. -/
theorem c9_ratio_is_current_over_target (metrics : PodMetricsInfo) (requests : Requests)
    (targetUtilization : Int) (r : ResourceUtilization)
    (h : GetResourceUtilizationRatio metrics requests targetUtilization = some r)
    (herr : r.err = none) :
    r.utilizationRatio =
      Float64.div (Float64.ofInt r.currentUtilization) (Float64.ofInt targetUtilization) := by
  have hnz := GetResourceUtilizationRatio_ok metrics requests targetUtilization r h herr
  rw [GetResourceUtilizationRatio_of_ne_zero metrics requests targetUtilization hnz] at h
  cases h
  rfl

/-- C9 at metrics={A:50,B:150}, requests={A:100,B:100}, target 50: current utilization
100 and ratio 100/50 = 2.0. -/
theorem c9_ratio_is_current_over_target_witness :
    GetResourceUtilizationRatio [("A", { Value := 50 }), ("B", { Value := 150 })]
        [("A", 100), ("B", 100)] 50 =
      some { utilizationRatio := Float64.fin false 4503599627370496 (-51),
             currentUtilization := 100, rawAverageValue := 100, err := none } ∧
    Float64.fin false 4503599627370496 (-51) =
      Float64.div (Float64.ofInt 100) (Float64.ofInt 50) :=
  ⟨by decide,
   c9_ratio_is_current_over_target [("A", { Value := 50 }), ("B", { Value := 150 })]
      [("A", 100), ("B", 100)] 50
      { utilizationRatio := Float64.fin false 4503599627370496 (-51),
        currentUtilization := 100, rawAverageValue := 100, err := none }
      (by decide) rfl⟩

/-- C10 (failing input): with metrics={A:50,B:150}, requests={A:100,B:100} and target 50
`GetResourceUtilizationRatio` returns without error, the current utilization is 100 and
the returned ratio is 2.0, actual over desired, while the ratio of desired to actual
utilization announced by the docstring at lines 23-25, 50/100, is 0.5. -/
theorem c10_ratio_direction_at_failing_input :
    GetResourceUtilizationRatio [("A", { Value := 50 }), ("B", { Value := 150 })]
        [("A", 100), ("B", 100)] 50 =
      some { utilizationRatio := Float64.fin false 4503599627370496 (-51),
             currentUtilization := 100, rawAverageValue := 100, err := none } ∧
    Float64.div (Float64.ofInt 50) (Float64.ofInt 100) =
      Float64.fin false 4503599627370496 (-53) ∧
    Float64.fin false 4503599627370496 (-51) ≠ Float64.div (Float64.ofInt 50) (Float64.ofInt 100) := by
  decide

/-- The ratio computed at line 51, in terms of the sums over the matched entries: the
`int32` percentage (sum of matched metric values * 100) / (sum of matched requests)
divided by the target utilization. -/
theorem utilizationRatio_of_matched_sums (metrics : PodMetricsInfo) (requests : Requests)
    (targetUtilization : Int) (r : ResourceUtilization)
    (h : GetResourceUtilizationRatio metrics requests targetUtilization = some r)
    (herr : r.err = none) :
    r.utilizationRatio =
      Float64.div
        (Float64.ofInt (wrap32 (Int.tdiv
          (wrap64 (wrap64 (matchedMetricsSum metrics requests) * 100))
          (wrap64 (matchedRequestsSum metrics requests)))))
        (Float64.ofInt targetUtilization) := by
  have hnz := GetResourceUtilizationRatio_ok metrics requests targetUtilization r h herr
  rw [GetResourceUtilizationRatio_of_ne_zero metrics requests targetUtilization hnz] at h
  cases h
  simp only [wrap32_wrap64, wrap64_mul_left]

/-- The ratio at metrics={A:50,B:150}, requests={A:100,B:100}, target 50: 2.0 is the
percentage 100 over the target 50. -/
theorem utilizationRatio_of_matched_sums_example :
    GetResourceUtilizationRatio [("A", { Value := 50 }), ("B", { Value := 150 })]
        [("A", 100), ("B", 100)] 50 =
      some { utilizationRatio := Float64.fin false 4503599627370496 (-51),
             currentUtilization := 100, rawAverageValue := 100, err := none } ∧
    Float64.fin false 4503599627370496 (-51) =
      Float64.div
        (Float64.ofInt (wrap32 (Int.tdiv
          (wrap64 (wrap64 (matchedMetricsSum [("A", { Value := 50 }), ("B", { Value := 150 })]
            [("A", 100), ("B", 100)]) * 100))
          (wrap64 (matchedRequestsSum [("A", { Value := 50 }), ("B", { Value := 150 })]
            [("A", 100), ("B", 100)])))))
        (Float64.ofInt 50) :=
  ⟨by decide,
   utilizationRatio_of_matched_sums [("A", { Value := 50 }), ("B", { Value := 150 })]
      [("A", 100), ("B", 100)] 50
      { utilizationRatio := Float64.fin false 4503599627370496 (-51),
        currentUtilization := 100, rawAverageValue := 100, err := none }
      (by decide) rfl⟩

/-! ## Order of iteration -/

theorem loopTotals_perm (metrics metrics2 : PodMetricsInfo) (requests : Requests)
    (hperm : metrics.Perm metrics2) :
    loopTotals metrics2 requests = loopTotals metrics requests := by
  have hm : (matched metrics requests).Perm (matched metrics2 requests) := hperm.filter _
  have hr : (matchedRequests metrics requests).Perm (matchedRequests metrics2 requests) :=
    hperm.filterMap _
  rw [loopTotals_eq, loopTotals_eq]
  unfold matchedMetricsSum matchedRequestsSum
  rw [(hm.map _).sum_eq, hr.sum_eq, hm.length_eq]

theorem usageTotal_perm (metrics metrics2 : PodMetricsInfo) (hperm : metrics.Perm metrics2) :
    usageTotal metrics2 = usageTotal metrics := by
  rw [usageTotal_eq, usageTotal_eq]
  unfold metricsSum
  rw [(hperm.map _).sum_eq]

/-- C11: the results do not depend on the order in which the metrics entries are
visited. For every permutation of the list of entries, `GetResourceUtilizationRatio`
and `GetMetricUsageRatio` return the same results as for the original list, the
`int64` sums wrapping around at every step. -/
theorem c11_results_independent_of_iteration_order (metrics metrics2 : PodMetricsInfo)
    (requests : Requests) (targetUtilization targetUsageLower targetUsageUpper : Int)
    (hperm : metrics.Perm metrics2) :
    GetResourceUtilizationRatio metrics2 requests targetUtilization =
      GetResourceUtilizationRatio metrics requests targetUtilization ∧
    GetMetricUsageRatio metrics2 targetUsageLower targetUsageUpper =
      GetMetricUsageRatio metrics targetUsageLower targetUsageUpper := by
  constructor
  · exact GetResourceUtilizationRatio_congr _ _ _ _ _ (loopTotals_perm _ _ _ hperm)
  · unfold GetMetricUsageRatio
    rw [usageTotal_perm _ _ hperm, hperm.length_eq]

/-- C11 at the two orders of metrics={A:9223372036854775807, B:1, C:-5}, whose sum
wraps around when A and B are added first. -/
theorem c11_results_independent_of_iteration_order_witness :
    GetResourceUtilizationRatio
        [("B", { Value := 1 }), ("A", { Value := 9223372036854775807 }), ("C", { Value := -5 })]
        [("A", 100), ("B", 100), ("C", 100)] 50 =
      GetResourceUtilizationRatio
        [("A", { Value := 9223372036854775807 }), ("B", { Value := 1 }), ("C", { Value := -5 })]
        [("A", 100), ("B", 100), ("C", 100)] 50 ∧
    GetMetricUsageRatio
        [("B", { Value := 1 }), ("A", { Value := 9223372036854775807 }), ("C", { Value := -5 })]
        20 40 =
      GetMetricUsageRatio
        [("A", { Value := 9223372036854775807 }), ("B", { Value := 1 }), ("C", { Value := -5 })]
        20 40 :=
  c11_results_independent_of_iteration_order
    [("A", { Value := 9223372036854775807 }), ("B", { Value := 1 }), ("C", { Value := -5 })]
    [("B", { Value := 1 }), ("A", { Value := 9223372036854775807 }), ("C", { Value := -5 })]
    [("A", 100), ("B", 100), ("C", 100)] 50 20 40
    (List.Perm.swap _ _ _)

/-! ## Division by the number of entries -/

/-- C12: `GetMetricUsageRatio` panics on the integer division by `len(metrics)` if and
only if the metrics map is empty; for every non-empty metrics map and every target
range the integer average is defined and the function returns. -/
theorem c12_division_by_zero_iff_empty (metrics : PodMetricsInfo)
    (targetUsageLower targetUsageUpper : Int) :
    (GetMetricUsageRatio metrics targetUsageLower targetUsageUpper = none ↔ metrics = []) ∧
    (div64 (usageTotal metrics) (metrics.length : Int) = none ↔ metrics = []) ∧
    (metrics ≠ [] →
      div64 (usageTotal metrics) (metrics.length : Int) =
        some (Int.tdiv (wrap64 (metricsSum metrics)) (metrics.length : Int))) := by
  have hdiv : div64 (usageTotal metrics) (metrics.length : Int) = none ↔ metrics = [] := by
    unfold div64
    constructor
    · intro h
      by_cases hz : (metrics.length : Int) = 0
      · exact List.length_eq_zero.mp (by exact_mod_cast hz)
      · rw [if_neg hz] at h
        cases h
    · intro h
      subst h
      rfl
  refine ⟨?_, hdiv, ?_⟩
  · constructor
    · intro h
      by_contra hne
      rw [GetMetricUsageRatio_of_ne_nil metrics targetUsageLower targetUsageUpper hne] at h
      cases h
    · intro h
      subst h
      rfl
  · intro hne
    have hpos : (0 : Int) < (metrics.length : Int) := by
      have : 0 < metrics.length := List.length_pos.mpr hne
      exact_mod_cast this
    rw [usageTotal_eq, div64_pos (isInt64_wrap64 _) hpos]

/-! ## The error condition and overflow -/

theorem sum_eq_zero_of_all_zero (xs : List Int) (h : ∀ x ∈ xs, x = 0) : xs.sum = 0 := by
  induction xs with
  | nil => rfl
  | cons x rest ih =>
    rw [List.sum_cons, h x (List.mem_cons_self _ _),
      ih (fun y hy => h y (List.mem_cons_of_mem _ hy))]
    rfl

theorem sum_nonneg_of_nonneg (xs : List Int) (h : ∀ x ∈ xs, 0 ≤ x) : 0 ≤ xs.sum := by
  induction xs with
  | nil => exact le_refl _
  | cons x rest ih =>
    rw [List.sum_cons]
    have h1 := h x (List.mem_cons_self _ _)
    have h2 := ih (fun y hy => h y (List.mem_cons_of_mem _ hy))
    omega

theorem all_zero_of_sum_eq_zero (xs : List Int) (h : ∀ x ∈ xs, 0 ≤ x) (hs : xs.sum = 0) :
    ∀ x ∈ xs, x = 0 := by
  induction xs with
  | nil => intro x hx; cases hx
  | cons y rest ih =>
    rw [List.sum_cons] at hs
    have h1 := h y (List.mem_cons_self _ _)
    have hrest : ∀ z ∈ rest, 0 ≤ z := fun z hz => h z (List.mem_cons_of_mem _ hz)
    have h2 := sum_nonneg_of_nonneg rest hrest
    intro x hx
    rcases List.mem_cons.mp hx with hxy | hxr
    · rw [hxy]; omega
    · exact ih hrest (by omega) x hxr

/-- C13 fails as stated. With metrics={A:1,B:1} and requests={A:5,B:-5} both entries are
matched and no matched request is zero, yet the requests sum to 0 and the error is
returned; the same happens with four pods of request 2^62 each, whose `int64` sum
wraps to 0. -/
theorem c13_counterexample_sum_zero_requests_nonzero :
    ((GetResourceUtilizationRatio [("A", { Value := 1 }), ("B", { Value := 1 })]
        [("A", 5), ("B", -5)] 50).map (fun r => r.err) = some (some errNoMatch) ∧
      matchedRequests [("A", { Value := 1 }), ("B", { Value := 1 })] [("A", 5), ("B", -5)]
        = [5, -5]) ∧
    ((GetResourceUtilizationRatio
        [("A", { Value := 1 }), ("B", { Value := 1 }), ("C", { Value := 1 }),
          ("D", { Value := 1 })]
        [("A", 4611686018427387904), ("B", 4611686018427387904),
          ("C", 4611686018427387904), ("D", 4611686018427387904)] 50).map (fun r => r.err)
        = some (some errNoMatch) ∧
      matchedRequests
        [("A", { Value := 1 }), ("B", { Value := 1 }), ("C", { Value := 1 }),
          ("D", { Value := 1 })]
        [("A", 4611686018427387904), ("B", 4611686018427387904),
          ("C", 4611686018427387904), ("D", 4611686018427387904)]
        = [4611686018427387904, 4611686018427387904, 4611686018427387904,
            4611686018427387904]) := by
  decide

/-- C13 (amended): when the matched requests are non-negative and their sum does not
overflow `int64`, `GetResourceUtilizationRatio` returns the error exactly when no
metrics entry has a matching request or all matched requests are zero. -/
theorem c13_error_iff_no_match_or_all_zero_amended (metrics : PodMetricsInfo)
    (requests : Requests) (targetUtilization : Int)
    (hnonneg : ∀ x ∈ matchedRequests metrics requests, 0 ≤ x)
    (hsum : isInt64 (matchedRequestsSum metrics requests)) :
    ∃ r, GetResourceUtilizationRatio metrics requests targetUtilization = some r ∧
      (r.err ≠ none ↔
        (matched metrics requests = [] ∨ ∀ x ∈ matchedRequests metrics requests, x = 0)) := by
  by_cases h : wrap64 (matchedRequestsSum metrics requests) = 0
  · refine ⟨_, GetResourceUtilizationRatio_of_zero metrics requests targetUtilization h, ?_⟩
    have hs : (matchedRequests metrics requests).sum = 0 := by
      have := wrap64_of_isInt64 hsum
      unfold matchedRequestsSum at this h
      rw [this] at h
      exact h
    simp only [ne_eq, reduceCtorEq, not_false_eq_true, true_iff]
    exact Or.inr (all_zero_of_sum_eq_zero _ hnonneg hs)
  · refine ⟨_, GetResourceUtilizationRatio_of_ne_zero metrics requests targetUtilization h, ?_⟩
    simp only [ne_eq, not_true_eq_false, false_iff]
    intro hor
    apply h
    have hz : ∀ x ∈ matchedRequests metrics requests, x = 0 := by
      rcases hor with hnil | hall
      · have hl : (matchedRequests metrics requests).length = 0 := by
          rw [matchedRequests_length, hnil]; rfl
        rw [List.length_eq_zero.mp hl]
        intro x hx; cases hx
      · exact hall
    unfold matchedRequestsSum
    rw [sum_eq_zero_of_all_zero _ hz]
    decide

/-- C13 (amended) at metrics={A:10,B:20}, requests={A:0,B:0}: every matched request is
zero and the error is returned. -/
theorem c13_error_iff_no_match_or_all_zero_amended_witness :
    ∃ r, GetResourceUtilizationRatio [("A", { Value := 10 }), ("B", { Value := 20 })]
        [("A", 0), ("B", 0)] 50 = some r ∧ r.err ≠ none := by
  obtain ⟨r, hr, hiff⟩ :=
    c13_error_iff_no_match_or_all_zero_amended [("A", { Value := 10 }), ("B", { Value := 20 })]
      [("A", 0), ("B", 0)] 50 (by decide) (by decide)
  exact ⟨r, hr, hiff.mpr (Or.inr (by decide))⟩

/-- C14: integer overflow of the sums is not guarded. With four pods of metric value 1
and request 2^62 each, every metrics entry has a matching, strictly positive `int64`
request and the exact sum of the requests is 2^64, yet the `int64` sum wraps to 0 and
`GetResourceUtilizationRatio` returns the error "no metrics returned matched known
pods". -/
theorem c14_overflow_not_guarded :
    ∃ (metrics : PodMetricsInfo) (requests : Requests) (targetUtilization : Int),
      (∀ entry ∈ metrics, isInt64 entry.2.Value ∧
        ∃ request, requests.lookup entry.1 = some request ∧ 0 < request ∧ isInt64 request) ∧
      0 < matchedRequestsSum metrics requests ∧
      ∃ r, GetResourceUtilizationRatio metrics requests targetUtilization = some r ∧
        (r.err = some errNoMatch ∨
          r.currentUtilization ≠
            Int.tdiv (matchedMetricsSum metrics requests * 100)
              (matchedRequestsSum metrics requests)) := by
  refine ⟨[("A", { Value := 1 }), ("B", { Value := 1 }), ("C", { Value := 1 }),
      ("D", { Value := 1 })],
    [("A", 4611686018427387904), ("B", 4611686018427387904),
      ("C", 4611686018427387904), ("D", 4611686018427387904)], 50, ?_, by decide, ?_⟩
  · intro entry hmem
    simp only [List.mem_cons, List.mem_nil_iff, or_false] at hmem
    rcases hmem with h | h | h | h <;> subst h <;>
      exact ⟨by decide, 4611686018427387904, by decide, by decide, by decide⟩
  · exact ⟨{ utilizationRatio := Float64.zero, currentUtilization := 0,
             rawAverageValue := 0, err := some errNoMatch }, by decide, Or.inl rfl⟩

/-! ## The selection of the target usage -/

theorem targetUsageElse_eq (currentUsage targetUsageLower targetUsageUpper : Int) :
    targetUsageElse currentUsage targetUsageLower targetUsageUpper =
      targetUsage currentUsage targetUsageLower targetUsageUpper := by
  unfold targetUsageElse targetUsage
  split_ifs <;> omega

theorem targetUsageNoSingle_eq (currentUsage targetUsageLower targetUsageUpper : Int) :
    targetUsageNoSingle currentUsage targetUsageLower targetUsageUpper =
      targetUsage currentUsage targetUsageLower targetUsageUpper := by
  unfold targetUsageNoSingle targetUsage
  split_ifs <;> omega

theorem targetUsage_eq_clamp (currentUsage targetUsageLower targetUsageUpper : Int)
    (hle : targetUsageLower ≤ targetUsageUpper) :
    targetUsage currentUsage targetUsageLower targetUsageUpper =
      max targetUsageLower (min currentUsage targetUsageUpper) := by
  unfold targetUsage
  split_ifs <;> omega

theorem targetUsage_ge_lower (currentUsage targetUsageLower targetUsageUpper : Int)
    (hle : targetUsageLower ≤ targetUsageUpper) :
    targetUsageLower ≤ targetUsage currentUsage targetUsageLower targetUsageUpper := by
  unfold targetUsage
  split_ifs <;> omega

theorem isInt64_targetUsage (currentUsage targetUsageLower targetUsageUpper : Int)
    (hc : isInt64 currentUsage) (hl : isInt64 targetUsageLower)
    (hu : isInt64 targetUsageUpper) :
    isInt64 (targetUsage currentUsage targetUsageLower targetUsageUpper) := by
  unfold targetUsage
  split_ifs
  · exact hc
  · exact hl
  · exact hl
  · exact hu
  · unfold isInt64; omega

/-- C15: the four-way selection of `targetUsage` is exhaustive for all inputs, also
with targetUsageLower > targetUsageUpper. When the first three conditions fail the
last one, currentUsage > targetUsageUpper, holds; replacing the last `else if` by a
plain `else` gives the same selection and the same function; and `targetUsage` is
always assigned, to one of currentUsage, targetUsageLower and targetUsageUpper. -/
theorem c15_target_selection_exhaustive (currentUsage targetUsageLower targetUsageUpper : Int) :
    (¬ (targetUsageLower ≤ currentUsage ∧ currentUsage ≤ targetUsageUpper) →
      ¬ targetUsageLower = targetUsageUpper → ¬ currentUsage < targetUsageLower →
      targetUsageUpper < currentUsage) ∧
    targetUsageElse currentUsage targetUsageLower targetUsageUpper =
      targetUsage currentUsage targetUsageLower targetUsageUpper ∧
    (∀ metrics : PodMetricsInfo,
      GetMetricUsageRatioElse metrics targetUsageLower targetUsageUpper =
        GetMetricUsageRatio metrics targetUsageLower targetUsageUpper) ∧
    targetUsageAssigned currentUsage targetUsageLower targetUsageUpper =
      some (targetUsage currentUsage targetUsageLower targetUsageUpper) ∧
    (targetUsage currentUsage targetUsageLower targetUsageUpper = currentUsage ∨
      targetUsage currentUsage targetUsageLower targetUsageUpper = targetUsageLower ∨
      targetUsage currentUsage targetUsageLower targetUsageUpper = targetUsageUpper) := by
  refine ⟨?_, targetUsageElse_eq _ _ _, ?_, ?_, ?_⟩
  · intro h1 h2 h3
    omega
  · intro metrics
    unfold GetMetricUsageRatioElse GetMetricUsageRatio
    simp only [targetUsageElse_eq]
  · unfold targetUsageAssigned targetUsage
    split_ifs
    · rfl
    · rfl
    · rfl
    · rfl
    · omega
  · unfold targetUsage
    split_ifs
    · exact Or.inl rfl
    · exact Or.inr (Or.inl rfl)
    · exact Or.inr (Or.inl rfl)
    · exact Or.inr (Or.inr rfl)
    · omega

/-- C15 with an inverted range, currentUsage 50, targetUsageLower 40, targetUsageUpper
20: the first three conditions fail and the last branch assigns targetUsageUpper. -/
theorem c15_target_selection_exhaustive_witness :
    (20 : Int) < 50 ∧ targetUsageAssigned 50 40 20 = some 20 ∧ targetUsage 50 40 20 = 20 :=
  ⟨(c15_target_selection_exhaustive 50 40 20).1 (by decide) (by decide) (by decide),
   by decide, by decide⟩

/-- C16: in `GetResourceUtilizationRatio` the division metricsTotal / int64(numEntries)
is never a division by zero. If the summed matched requests are non-zero, so that the
success path is reached, then numEntries >= 1 and the division is defined; and the
function returns for every target utilization. -/
theorem c16_num_entries_positive_on_success_path (metrics : PodMetricsInfo)
    (requests : Requests) (h : (loopTotals metrics requests).requestsTotal ≠ 0) :
    1 ≤ (loopTotals metrics requests).numEntries ∧
    div64 (loopTotals metrics requests).metricsTotal
        ((loopTotals metrics requests).numEntries : Int) =
      some (Int.tdiv (loopTotals metrics requests).metricsTotal
        ((loopTotals metrics requests).numEntries : Int)) ∧
    ∀ targetUtilization : Int,
      ∃ r, GetResourceUtilizationRatio metrics requests targetUtilization = some r ∧
        r.err = none := by
  rw [loopTotals_eq] at h ⊢
  simp only at h ⊢
  have hpos : 0 < (matched metrics requests).length := matched_length_pos h
  have hposi : (0 : Int) < ((matched metrics requests).length : Int) := by exact_mod_cast hpos
  refine ⟨hpos, div64_pos (isInt64_wrap64 _) hposi, ?_⟩
  intro targetUtilization
  exact ⟨_, GetResourceUtilizationRatio_of_ne_zero metrics requests targetUtilization h, rfl⟩

/-- C16 at metrics={A:50,B:150,Z:7}, requests={A:100,B:100}: the requests total is 200
and two entries are counted. -/
theorem c16_num_entries_positive_on_success_path_witness :
    (loopTotals [("A", { Value := 50 }), ("B", { Value := 150 }), ("Z", { Value := 7 })]
      [("A", 100), ("B", 100)]) =
      { metricsTotal := 200, requestsTotal := 200, numEntries := 2 } ∧
    1 ≤ (loopTotals [("A", { Value := 50 }), ("B", { Value := 150 }), ("Z", { Value := 7 })]
      [("A", 100), ("B", 100)]).numEntries :=
  ⟨by decide,
   (c16_num_entries_positive_on_success_path
      [("A", { Value := 50 }), ("B", { Value := 150 }), ("Z", { Value := 7 })]
      [("A", 100), ("B", 100)] (by decide)).1⟩

/-- C17: for a non-empty metrics map and targetUsageLower <= targetUsageUpper the
`targetUsage` chosen by `GetMetricUsageRatio` is currentUsage clamped to the range,
max(targetUsageLower, min(currentUsage, targetUsageUpper)); the function without the
single-target branch returns the same result. -/
theorem c17_target_usage_is_clamp (metrics : PodMetricsInfo)
    (targetUsageLower targetUsageUpper : Int) (hne : metrics ≠ [])
    (hle : targetUsageLower ≤ targetUsageUpper) :
    ∃ r, GetMetricUsageRatio metrics targetUsageLower targetUsageUpper = some r ∧
      targetUsage r.currentUsage targetUsageLower targetUsageUpper =
        max targetUsageLower (min r.currentUsage targetUsageUpper) ∧
      r.usageRatio =
        Float64.div (Float64.ofInt r.currentUsage)
          (Float64.ofInt (max targetUsageLower (min r.currentUsage targetUsageUpper))) ∧
      targetUsageNoSingle r.currentUsage targetUsageLower targetUsageUpper =
        targetUsage r.currentUsage targetUsageLower targetUsageUpper ∧
      GetMetricUsageRatioNoSingle metrics targetUsageLower targetUsageUpper = some r := by
  refine ⟨_, GetMetricUsageRatio_of_ne_nil metrics targetUsageLower targetUsageUpper hne,
    targetUsage_eq_clamp _ _ _ hle, ?_, targetUsageNoSingle_eq _ _ _, ?_⟩
  · simp only
    rw [targetUsage_eq_clamp _ _ _ hle]
  · rw [← GetMetricUsageRatio_of_ne_nil metrics targetUsageLower targetUsageUpper hne]
    unfold GetMetricUsageRatioNoSingle GetMetricUsageRatio
    simp only [targetUsageNoSingle_eq]

/-- C17 at metrics={A:10,B:10} with the single target 20: the target usage is
max(20, min(10, 20)) = 20 and the function without the single-target branch returns
the same ratio 0.5. -/
theorem c17_target_usage_is_clamp_witness :
    ∃ r, GetMetricUsageRatio [("A", { Value := 10 }), ("B", { Value := 10 })] 20 20 = some r ∧
      r.currentUsage = 10 ∧
      targetUsage r.currentUsage 20 20 = 20 ∧
      GetMetricUsageRatioNoSingle [("A", { Value := 10 }), ("B", { Value := 10 })] 20 20 =
        some r := by
  obtain ⟨r, hr, hclamp, _, _, hsame⟩ :=
    c17_target_usage_is_clamp [("A", { Value := 10 }), ("B", { Value := 10 })] 20 20
      (by decide) (by decide)
  have hcu : r.currentUsage = 10 := by
    have h2 : GetMetricUsageRatio [("A", { Value := 10 }), ("B", { Value := 10 })] 20 20 =
        some { usageRatio := Float64.fin false 4503599627370496 (-53), currentUsage := 10 } := by
      decide
    rw [h2] at hr
    cases hr
    rfl
  refine ⟨r, hr, hcu, ?_, hsame⟩
  rw [hclamp, hcu]
  decide

/-! ## The denominator and the direction of the ratio -/

/-- The exact ratio of `GetMetricUsageRatio` on a non-empty metrics map. -/
theorem exactUsageRatio_of_ne_nil (metrics : PodMetricsInfo)
    (targetUsageLower targetUsageUpper : Int) (hne : metrics ≠ []) :
    exactUsageRatio metrics targetUsageLower targetUsageUpper =
      some (((Int.tdiv (wrap64 (metricsSum metrics)) (metrics.length : Int) : Int) : ℚ) /
        ((targetUsage (Int.tdiv (wrap64 (metricsSum metrics)) (metrics.length : Int))
          targetUsageLower targetUsageUpper : Int) : ℚ)) := by
  have hpos : (0 : Int) < (metrics.length : Int) := by
    have : 0 < metrics.length := List.length_pos.mpr hne
    exact_mod_cast this
  unfold exactUsageRatio
  rw [usageTotal_eq, div64_pos (isInt64_wrap64 _) hpos]

theorem targetUsage_compare (currentUsage targetUsageLower targetUsageUpper : Int)
    (hle : targetUsageLower ≤ targetUsageUpper) :
    (currentUsage < targetUsage currentUsage targetUsageLower targetUsageUpper ↔
      currentUsage < targetUsageLower) ∧
    (targetUsage currentUsage targetUsageLower targetUsageUpper < currentUsage ↔
      targetUsageUpper < currentUsage) ∧
    (currentUsage = targetUsage currentUsage targetUsageLower targetUsageUpper ↔
      (targetUsageLower ≤ currentUsage ∧ currentUsage ≤ targetUsageUpper)) := by
  unfold targetUsage
  split_ifs <;> omega

/-- C18: for a non-empty metrics map and a range with 0 < targetUsageLower <=
targetUsageUpper, the `targetUsage` used as the denominator of the final ratio
satisfies targetUsage >= targetUsageLower > 0, and for `int64` bounds its conversion
to `float64` is a positive finite value, so the ratio division has no zero
denominator. -/
theorem c18_target_usage_positive (metrics : PodMetricsInfo)
    (targetUsageLower targetUsageUpper : Int) (hne : metrics ≠ [])
    (hpos : 0 < targetUsageLower) (hle : targetUsageLower ≤ targetUsageUpper) :
    ∃ r, GetMetricUsageRatio metrics targetUsageLower targetUsageUpper = some r ∧
      r.usageRatio =
        Float64.div (Float64.ofInt r.currentUsage)
          (Float64.ofInt (targetUsage r.currentUsage targetUsageLower targetUsageUpper)) ∧
      targetUsageLower ≤ targetUsage r.currentUsage targetUsageLower targetUsageUpper ∧
      0 < targetUsage r.currentUsage targetUsageLower targetUsageUpper ∧
      (isInt64 targetUsageLower → isInt64 targetUsageUpper →
        ∃ m e, m ≠ 0 ∧
          Float64.ofInt (targetUsage r.currentUsage targetUsageLower targetUsageUpper) =
            Float64.fin false m e) := by
  have hge := targetUsage_ge_lower
    (Int.tdiv (wrap64 (metricsSum metrics)) (metrics.length : Int))
    targetUsageLower targetUsageUpper hle
  refine ⟨_, GetMetricUsageRatio_of_ne_nil metrics targetUsageLower targetUsageUpper hne,
    rfl, hge, lt_of_lt_of_le hpos hge, ?_⟩
  intro hl hu
  simp only
  have hlen : (0 : Int) < (metrics.length : Int) := by
    have : 0 < metrics.length := List.length_pos.mpr hne
    exact_mod_cast this
  have hin := isInt64_targetUsage _ _ _ (isInt64_tdiv_pos (isInt64_wrap64 (metricsSum metrics)) hlen)
    hl hu
  have htpos := lt_of_lt_of_le hpos hge
  obtain ⟨m, e, hm, hfin⟩ := Float64.ofInt_fin_of_ne_zero _ (ne_of_gt htpos) hin
  refine ⟨m, e, hm, ?_⟩
  rw [hfin]
  have hd : decide (targetUsage (Int.tdiv (wrap64 (metricsSum metrics)) (metrics.length : Int))
      targetUsageLower targetUsageUpper < 0) = false := by
    simp only [decide_eq_false_iff_not, not_lt]
    exact le_of_lt htpos
  rw [hd]

/-- C18 at metrics={A:10,B:10}, range [20,40]: the denominator is 20. -/
theorem c18_target_usage_positive_witness :
    ∃ r, GetMetricUsageRatio [("A", { Value := 10 }), ("B", { Value := 10 })] 20 40 = some r ∧
      (20 : Int) ≤ targetUsage r.currentUsage 20 40 ∧
      0 < targetUsage r.currentUsage 20 40 := by
  obtain ⟨r, hr, _, hge, hgt, _⟩ :=
    c18_target_usage_positive [("A", { Value := 10 }), ("B", { Value := 10 })] 20 40
      (by decide) (by decide) (by decide)
  exact ⟨r, hr, hge, hgt⟩

/-- C19: scaling direction of `GetMetricUsageRatio`. For a non-empty metrics map and a
range with 0 < targetUsageLower <= targetUsageUpper, with the final division taken as
exact rational division currentUsage / targetUsage, the ratio is < 1 if and only if
currentUsage < targetUsageLower, > 1 if and only if currentUsage > targetUsageUpper,
and = 1 if and only if currentUsage lies in the range. -/
theorem c19_scaling_direction (metrics : PodMetricsInfo)
    (targetUsageLower targetUsageUpper : Int) (hne : metrics ≠ [])
    (hpos : 0 < targetUsageLower) (hle : targetUsageLower ≤ targetUsageUpper) :
    ∃ r q, GetMetricUsageRatio metrics targetUsageLower targetUsageUpper = some r ∧
      exactUsageRatio metrics targetUsageLower targetUsageUpper = some q ∧
      q = (r.currentUsage : ℚ) /
        ((targetUsage r.currentUsage targetUsageLower targetUsageUpper : Int) : ℚ) ∧
      (q < 1 ↔ r.currentUsage < targetUsageLower) ∧
      (1 < q ↔ targetUsageUpper < r.currentUsage) ∧
      (q = 1 ↔ (targetUsageLower ≤ r.currentUsage ∧ r.currentUsage ≤ targetUsageUpper)) := by
  refine ⟨_, _, GetMetricUsageRatio_of_ne_nil metrics targetUsageLower targetUsageUpper hne,
    exactUsageRatio_of_ne_nil metrics targetUsageLower targetUsageUpper hne, rfl, ?_⟩
  simp only
  generalize Int.tdiv (wrap64 (metricsSum metrics)) (metrics.length : Int) = cu
  have hge := targetUsage_ge_lower cu targetUsageLower targetUsageUpper hle
  obtain ⟨hlt, hgt, heq⟩ := targetUsage_compare cu targetUsageLower targetUsageUpper hle
  have htpos : (0 : ℚ) < ((targetUsage cu targetUsageLower targetUsageUpper : Int) : ℚ) := by
    exact_mod_cast lt_of_lt_of_le hpos hge
  refine ⟨?_, ?_, ?_⟩
  · rw [div_lt_one htpos, Int.cast_lt]
    exact hlt
  · rw [one_lt_div htpos, Int.cast_lt]
    exact hgt
  · rw [div_eq_one_iff_eq (ne_of_gt htpos), Int.cast_inj]
    exact heq

/-- C19 at metrics={A:10,B:10}, range [20,40]: the current usage 10 is below the range
and the exact ratio is below 1. -/
theorem c19_scaling_direction_witness :
    ∃ r q, GetMetricUsageRatio [("A", { Value := 10 }), ("B", { Value := 10 })] 20 40 = some r ∧
      exactUsageRatio [("A", { Value := 10 }), ("B", { Value := 10 })] 20 40 = some q ∧
      r.currentUsage = 10 ∧ q < 1 := by
  obtain ⟨r, q, hr, hq, _, hlt, _, _⟩ :=
    c19_scaling_direction [("A", { Value := 10 }), ("B", { Value := 10 })] 20 40
      (by decide) (by decide) (by decide)
  have hcu : r.currentUsage = 10 := by
    have h2 : GetMetricUsageRatio [("A", { Value := 10 }), ("B", { Value := 10 })] 20 40 =
        some { usageRatio := Float64.fin false 4503599627370496 (-53), currentUsage := 10 } := by
      decide
    rw [h2] at hr
    cases hr
    rfl
  exact ⟨r, q, hr, hq, hcu, hlt.mpr (by rw [hcu]; decide)⟩

end Metrics
